import Mathlib

/-!
Shallow embedding of the bitperm Scope/Permission engine
(src/src/permission/mod.rs, src/src/scope/mod.rs, src/src/scope/error.rs,
src/src/common/error.rs) and verification of its specification claims.

Modelling conventions:
* Rust `u64` values are `Nat`; every value the code constructs stays below
  2^64 (permission values are `1 << s` with `s ≤ 52`), so no wrap-around
  arises on reachable inputs and `Nat` arithmetic coincides with `u64`.
* Rust `HashMap<String, _>` is an association list `List (String × _)`;
  `HashMap::insert` replaces the binding when the key is present and
  otherwise appends, `get` returns the first binding.  Map iteration order
  is the list order (implementation-defined in the source as well).
* A Rust panic (including an arithmetic-overflow panic of `1 << shift` for
  `shift ≥ 64` under checked arithmetic) is `Option.none`; a normal return
  is `some`.
* `&mut self` methods are state transformers `State → State × Result`.
* `PermissionErrorCase` in src/src/permission/error.rs declares only
  `MaxValue` and `InvalidValue`, while `Permission::grant`/`revoke` in
  src/src/permission/mod.rs construct `PermissionErrorCase::GrantError` and
  `PermissionErrorCase::RevocationError`; the embedding carries all four
  cases so that the constructed error values are representable.
-/

namespace Bitperm

/-- `MAX_VALUE` from src/src/permission/mod.rs: `9007199254740991 = 2^53 - 1`,
the JavaScript safe-integer ceiling. -/
def MAX_VALUE : Nat := 9007199254740991

inductive PermissionErrorCase where
  | MaxValue
  | InvalidValue
  | GrantError
  | RevocationError
deriving DecidableEq, Repr

/-- `PermissionErrorMetadata` from src/src/permission/error.rs. -/
structure PermissionErrorMetadata where
  shift : Option Nat
deriving DecidableEq, Repr

inductive ScopeErrorCase where
  | PermissionExists
  | ScopeExists
  | BothExist
deriving DecidableEq, Repr

/-- `ErrorKind` from src/src/common/error.rs; the payloads keep the fields
of `PermissionError` and `ScopeError` that the constructors store. -/
inductive ErrorKind where
  | PermissionError (c : PermissionErrorCase) (name : String)
      (metadata : PermissionErrorMetadata)
  | ScopeError (c : ScopeErrorCase) (name : String)
deriving DecidableEq, Repr

/-- The `Permission` struct from src/src/permission/mod.rs. -/
structure Permission where
  name : String
  value : Nat
  has_permission : Bool
deriving DecidableEq, Repr

/-- Rust `1u64 << shift` under checked arithmetic: a shift amount of 64 or
more overflows (panics, `none`); otherwise the value is `2 ^ shift`. -/
def shl1 (shift : Nat) : Option Nat :=
  if shift < 64 then some (2 ^ shift) else none

/-- Rust `u64::is_power_of_two` (`count_ones() == 1`): a nonzero value
with no bit in common with its predecessor, i.e. exactly the powers of
two. -/
def is_power_of_two (value : Nat) : Bool :=
  value != 0 && (value &&& (value - 1)) == 0

/-- `validate_shift` from src/src/permission/mod.rs: checks
`(1 << shift) <= MAX_VALUE`; computing `1 << shift` itself overflows for
`shift ≥ 64`. -/
def validate_shift (name : String) (shift : Nat) :
    Option (Except ErrorKind Nat) :=
  match shl1 shift with
  | none => none
  | some v =>
    if v ≤ MAX_VALUE then
      some (Except.ok shift)
    else
      some (Except.error (ErrorKind.PermissionError PermissionErrorCase.MaxValue
        name ⟨some shift⟩))

/-- `validate_value` from src/src/permission/mod.rs: the value must be `1`
or a power of two. -/
def validate_value (name : String) (value : Nat) : Except ErrorKind Unit :=
  if value = 1 ∨ is_power_of_two value then
    Except.ok ()
  else
    Except.error (ErrorKind.PermissionError PermissionErrorCase.InvalidValue
      name ⟨none⟩)

/-- `Permission::new` from src/src/permission/mod.rs: validates the shift,
then validates the computed value `1 << validated_shift`, then constructs
the permission with `granted` (`has_permission`) false. -/
def Permission.new (name : String) (shift : Nat) :
    Option (Except ErrorKind Permission) :=
  match validate_shift name shift with
  | none => none
  | some (Except.error err) => some (Except.error err)
  | some (Except.ok validated_shift) =>
    match shl1 validated_shift with
    | none => none
    | some v =>
      match validate_value name v with
      | Except.ok _ =>
          some (Except.ok { name := name, value := v, has_permission := false })
      | Except.error err => some (Except.error err)

/-- `Permission::grant`: fails when `has_permission` is already set,
otherwise sets it; the returned permission is the state behind the
`&mut self` reference after the call. -/
def Permission.grant (p : Permission) : Permission × Except ErrorKind Unit :=
  if p.has_permission then
    (p, Except.error (ErrorKind.PermissionError PermissionErrorCase.GrantError
      p.name ⟨none⟩))
  else
    ({ p with has_permission := true }, Except.ok ())

/-- `Permission::revoke`: fails when `has_permission` is already clear,
otherwise clears it. -/
def Permission.revoke (p : Permission) : Permission × Except ErrorKind Unit :=
  if !p.has_permission then
    (p, Except.error (ErrorKind.PermissionError
      PermissionErrorCase.RevocationError p.name ⟨none⟩))
  else
    ({ p with has_permission := false }, Except.ok ())

/-- `Permission::has`. -/
def Permission.has (p : Permission) : Bool := p.has_permission

/-- `HashMap::contains_key` on the association-list model. -/
def containsKey {α : Type} (m : List (String × α)) (k : String) : Bool :=
  m.any (fun e => e.1 == k)

/-- `HashMap::get` / `get_mut` lookup: first binding with the key. -/
def getKey {α : Type} : List (String × α) → String → Option α
  | [], _ => none
  | e :: rest, k => if e.1 == k then some e.2 else getKey rest k

/-- Writing back through the `&mut` reference returned by `get_mut`:
replace the binding the lookup found. -/
def setKey {α : Type} : List (String × α) → String → α → List (String × α)
  | [], _, _ => []
  | e :: rest, k, v => if e.1 == k then (k, v) :: rest else e :: setKey rest k v

/-- `HashMap::insert`: replace the binding when the key is present,
otherwise add a new binding. -/
def insertKey {α : Type} (m : List (String × α)) (k : String) (v : α) :
    List (String × α) :=
  if containsKey m k then setKey m k v else m ++ [(k, v)]

/-- The `Scope` struct from src/src/scope/mod.rs (recursive through the
child map, hence an inductive rather than a structure). -/
inductive Scope where
  | mk (name : String) (permissions : List (String × Permission))
      (next_permission_shift : Nat) (scopes : List (String × Scope)) : Scope

def Scope.name : Scope → String
  | .mk n _ _ _ => n

def Scope.permissions : Scope → List (String × Permission)
  | .mk _ p _ _ => p

def Scope.next_permission_shift : Scope → Nat
  | .mk _ _ s _ => s

def Scope.scopes : Scope → List (String × Scope)
  | .mk _ _ _ c => c

/-- The `ScopeTuple` struct from src/src/scope/mod.rs:
`(name, aggregate u64, permission names, child tuples)`. -/
inductive ScopeTuple where
  | mk (name : String) (aggregate : Nat) (permission_names : List String)
      (children : List ScopeTuple) : ScopeTuple

def ScopeTuple.name : ScopeTuple → String
  | .mk n _ _ _ => n

/-- `Scope::new`. -/
def Scope.new (name : String) : Scope := Scope.mk name [] 0 []

/-- `Scope::validate_name`: the source computes
`perm_unique = !permissions.is_empty() && permissions.contains_key(name)`
(and likewise for scopes; the names are the source's, despite being
collision flags) and matches on the negated pair. -/
def Scope.validate_name (s : Scope) (name : String) : Except ErrorKind Unit :=
  let perm_unique := !s.permissions.isEmpty && containsKey s.permissions name
  let scope_unique := !s.scopes.isEmpty && containsKey s.scopes name
  match !perm_unique, !scope_unique with
  | true, true => Except.ok ()
  | false, true =>
      Except.error (ErrorKind.ScopeError ScopeErrorCase.PermissionExists name)
  | true, false =>
      Except.error (ErrorKind.ScopeError ScopeErrorCase.ScopeExists name)
  | false, false =>
      Except.error (ErrorKind.ScopeError ScopeErrorCase.BothExist name)

/-- `Scope::add_permission`: validate the name, create a permission at the
current `next_permission_shift`, insert it and bump the counter (a `u8` in
the source, hence the `% 256`). `none` is the (unreachable through this
path) panic of `Permission::new`. -/
def Scope.add_permission (s : Scope) (name : String) :
    Option (Scope × Except ErrorKind Unit) :=
  match s.validate_name name with
  | Except.error err => some (s, Except.error err)
  | Except.ok _ =>
    match Permission.new name s.next_permission_shift with
    | none => none
    | some (Except.error err) => some (s, Except.error err)
    | some (Except.ok perm) =>
        some (Scope.mk s.name (insertKey s.permissions name perm)
          ((s.next_permission_shift + 1) % 256) s.scopes, Except.ok ())

/-- `Scope::add_scope`: validate the name, insert a fresh empty child. -/
def Scope.add_scope (s : Scope) (name : String) :
    Scope × Except ErrorKind Unit :=
  match s.validate_name name with
  | Except.error err => (s, Except.error err)
  | Except.ok _ =>
      (Scope.mk s.name s.permissions s.next_permission_shift
        (insertKey s.scopes name (Scope.new name)), Except.ok ())

/-- `Scope::permission`: `None` for an empty map, else the lookup. -/
def Scope.permission (s : Scope) (name : String) : Option Permission :=
  if s.permissions.isEmpty then none else getKey s.permissions name

/-- `Scope::scope`: `None` for an empty map, else the lookup. -/
def Scope.scope (s : Scope) (name : String) : Option Scope :=
  if s.scopes.isEmpty then none else getKey s.scopes name

/-- The caller-side composite `scope.permission(name)` followed by
`grant()` on the returned `&mut Permission`: `none` when there is no such
permission to call `grant` on; otherwise the updated permission is the new
state of the binding the lookup found. -/
def Scope.grant_permission (s : Scope) (name : String) :
    Option (Scope × Except ErrorKind Unit) :=
  match s.permission name with
  | none => none
  | some p =>
      let r := p.grant
      some (Scope.mk s.name (setKey s.permissions name r.1)
        s.next_permission_shift s.scopes, r.2)

/-- The caller-side composite `scope.permission(name)` followed by
`revoke()`. -/
def Scope.revoke_permission (s : Scope) (name : String) :
    Option (Scope × Except ErrorKind Unit) :=
  match s.permission name with
  | none => none
  | some p =>
      let r := p.revoke
      some (Scope.mk s.name (setKey s.permissions name r.1)
        s.next_permission_shift s.scopes, r.2)

/-- The loop body of `Scope::as_u64`: OR together the values of the granted
permissions, in map order. -/
def aggregateList (perms : List (String × Permission)) : Nat :=
  perms.foldl (fun value e => if e.2.has then value ||| e.2.value else value) 0

/-- `Scope::as_u64`. -/
def Scope.as_u64 (s : Scope) : Nat := aggregateList s.permissions

mutual

/-- `Scope::as_tuple`: the permission-name list in map order, the child
tuples collapsed recursively. -/
def Scope.as_tuple : Scope → ScopeTuple
  | Scope.mk name perms _ children =>
      ScopeTuple.mk name (aggregateList perms) (perms.map Prod.fst)
        (collapse_children children [])

/-- The child loop of `as_tuple`: the source calls
`scopes_vector.insert(i, child.as_tuple())` with `i` left at `0`, so each
child tuple is pushed at the front and the list comes out reversed. -/
def collapse_children : List (String × Scope) → List ScopeTuple → List ScopeTuple
  | [], acc => acc
  | e :: rest, acc => collapse_children rest (Scope.as_tuple e.2 :: acc)

end

/-- The permission-expansion loop of `impl From<ScopeTuple> for Scope`
(src/src/scope/mod.rs lines 140-156): at position `i` it builds
`Permission::new(names[i], i + 1)`, grants it when
`aggregate & (2 << i) == (2 << i)` (`2 <<< i = 2 ^ (i + 1)`), and inserts
it; any `Permission::new` failure breaks the loop and the caller panics
(`none`). -/
def expand_permissions (permission_number : Nat) :
    List String → Nat → List (String × Permission) →
    Option (List (String × Permission))
  | [], _, acc => some acc
  | n :: rest, i, acc =>
    match Permission.new n (i + 1) with
    | some (Except.ok perm) =>
        let perm :=
          if permission_number &&& (2 <<< i) = 2 <<< i then
            (Permission.grant perm).1
          else perm
        expand_permissions permission_number rest (i + 1) (insertKey acc n perm)
    | _ => none

mutual

/-- `impl From<ScopeTuple> for Scope` (`Scope::from`): expand the
permissions, expand the children, then assemble the scope with
`next_permission_shift = permission_count as u8`. `none` is the panic. -/
def Scope.fromTuple : ScopeTuple → Option Scope
  | ScopeTuple.mk name permission_number permission_names child_scopes =>
    match expand_permissions permission_number permission_names 0 [] with
    | none => none
    | some permissions =>
      match expand_children child_scopes [] with
      | none => none
      | some scopes =>
          some (Scope.mk name permissions (permission_names.length % 256)
            scopes)

/-- The child loop of `Scope::from`: each child tuple is expanded
recursively and inserted under its own name. -/
def expand_children : List ScopeTuple → List (String × Scope) →
    Option (List (String × Scope))
  | [], acc => some acc
  | t :: rest, acc =>
    match Scope.fromTuple t with
    | none => none
    | some child => expand_children rest (insertKey acc t.name child)

end

mutual

/-- A tuple all of whose permission-name lists (at every depth) hold at
most 52 entries. -/
def bounded_tuple : ScopeTuple → Bool
  | ScopeTuple.mk _ _ permission_names children =>
      decide (permission_names.length ≤ 52) && bounded_children children

def bounded_children : List ScopeTuple → Bool
  | [] => true
  | t :: rest => bounded_tuple t && bounded_children rest

end

/-- One public mutation of a scope: the four `&mut self` entry points the
API exposes (`grant`/`revoke` reached through `scope.permission(name)`). -/
inductive Op where
  | addPermission (name : String)
  | addScope (name : String)
  | grantPermission (name : String)
  | revokePermission (name : String)

def applyOp (s : Scope) : Op → Option (Scope × Except ErrorKind Unit)
  | Op.addPermission n => s.add_permission n
  | Op.addScope n => some (s.add_scope n)
  | Op.grantPermission n => s.grant_permission n
  | Op.revokePermission n => s.revoke_permission n

/-- Keep only a successful result of an operation. -/
def runOk : Option (Scope × Except ErrorKind Unit) → Option Scope
  | some (s, Except.ok _) => some s
  | _ => none

/-- Build a scope by running a sequence of public operations, requiring
every one of them to succeed. -/
def buildScope (name : String) (ops : List Op) : Option Scope :=
  ops.foldlM (fun s op => runOk (applyOp s op)) (Scope.new name)

/-- Recognize a `ShiftOverflow` (`MaxValue`) outcome of `Permission::new`. -/
def isShiftOverflow : Option (Except ErrorKind Permission) → Bool
  | some (Except.error (ErrorKind.PermissionError PermissionErrorCase.MaxValue _ _)) =>
      true
  | _ => false

/-- Recognize an `InvalidValue` outcome of `Permission::new`. -/
def returnsInvalidValue : Option (Except ErrorKind Permission) → Bool
  | some (Except.error (ErrorKind.PermissionError PermissionErrorCase.InvalidValue _ _)) =>
      true
  | _ => false

/-- A scope holding one granted permission, built through the public API. -/
def c1Scenario : Option Scope :=
  buildScope "USER" [Op.addPermission "READ", Op.grantPermission "READ"]

/-- The expansion of a one-permission tuple. -/
def c2Expanded : Option Scope := Scope.fromTuple (ScopeTuple.mk "A" 0 ["P"] [])

/-- A scope at the documented 53-permission cap: permissions "P0".."P52"
on bits 0..52, the state `Scope::new` followed by 53 successful
`add_permission` calls produces. -/
def s53 : Scope :=
  Scope.mk "S"
    ((List.range 53).map (fun i =>
      ("P" ++ toString i,
        { name := "P" ++ toString i, value := 2 ^ i, has_permission := false })))
    53 []

/-- READ/WRITE/EXECUTE on bits 0/1/2 with READ and EXECUTE granted. -/
def c5Scenario : Option Scope :=
  buildScope "FILE" [Op.addPermission "READ", Op.addPermission "WRITE",
    Op.addPermission "EXECUTE", Op.grantPermission "READ",
    Op.grantPermission "EXECUTE"]

/-- A scope holding one permission named "P", used to exercise the error
paths of the mutation API. -/
def collisionScope : Scope :=
  Scope.mk "S" [("P", { name := "P", value := 1, has_permission := false })] 1 []

def collisionError : ErrorKind :=
  ErrorKind.ScopeError ScopeErrorCase.PermissionExists "P"

theorem pow2_le_MAX_iff (s : Nat) : 2 ^ s ≤ MAX_VALUE ↔ s ≤ 52 := by
  constructor
  · intro h
    by_contra hs
    have h53 : 53 ≤ s := by omega
    have : 2 ^ 53 ≤ 2 ^ s := Nat.pow_le_pow_right (by norm_num) h53
    have := le_trans this h
    norm_num [MAX_VALUE] at this
  · intro h
    have : 2 ^ s ≤ 2 ^ 52 := Nat.pow_le_pow_right (by norm_num) h
    exact le_trans this (by norm_num [MAX_VALUE])

theorem is_power_of_two_pow (k : Nat) :
    is_power_of_two (2 ^ k) = true := by
  have h1 : 2 ^ k &&& (2 ^ k - 1) = 0 := by
    rw [Nat.land_comm, Nat.and_two_pow,
      Nat.testBit_lt_two_pow (Nat.sub_lt (Nat.two_pow_pos k) (by omega))]
    simp
  simp [is_power_of_two, h1, (Nat.two_pow_pos k).ne']

theorem validate_shift_ok (name : String) {s : Nat} (h : s ≤ 52) :
    validate_shift name s = some (Except.ok s) := by
  have h64 : s < 64 := by omega
  simp only [validate_shift, shl1, if_pos h64]
  rw [if_pos ((pow2_le_MAX_iff s).mpr h)]

theorem validate_shift_overflow (name : String) {s : Nat} (h53 : 53 ≤ s)
    (h63 : s ≤ 63) :
    validate_shift name s =
      some (Except.error (ErrorKind.PermissionError PermissionErrorCase.MaxValue
        name ⟨some s⟩)) := by
  have h64 : s < 64 := by omega
  simp only [validate_shift, shl1, if_pos h64]
  rw [if_neg (fun hc => absurd ((pow2_le_MAX_iff s).mp hc) (by omega))]

theorem validate_shift_panic (name : String) {s : Nat} (h : 64 ≤ s) :
    validate_shift name s = none := by
  simp only [validate_shift, shl1, if_neg (by omega : ¬ s < 64)]

theorem Permission.new_ok (name : String) {s : Nat} (h : s ≤ 52) :
    Permission.new name s =
      some (Except.ok { name := name, value := 2 ^ s, has_permission := false }) := by
  have h64 : s < 64 := by omega
  simp only [Permission.new, validate_shift_ok name h, shl1, if_pos h64,
    validate_value]
  rw [if_pos (Or.inr (is_power_of_two_pow s))]

theorem Permission.new_overflow (name : String) {s : Nat} (h53 : 53 ≤ s)
    (h63 : s ≤ 63) :
    Permission.new name s =
      some (Except.error (ErrorKind.PermissionError PermissionErrorCase.MaxValue
        name ⟨some s⟩)) := by
  simp only [Permission.new, validate_shift_overflow name h53 h63]

theorem Permission.new_panic (name : String) {s : Nat} (h : 64 ≤ s) :
    Permission.new name s = none := by
  simp only [Permission.new, validate_shift_panic name h]

/-- C1: the round-trip contract fails on the code. A scope built purely
through the public API (`new "USER"`, `add_permission "READ"`,
`grant`) has `as_u64 = 1`, but expanding its collapsed tuple yields a
scope with `as_u64 = 0`: the expansion path assigns bit `i + 1` to the
permission at position `i` and tests aggregate bit `i + 1`, while
allocation had assigned bit `i`, so the observational equivalence the
claim (and the repository's own `validate_scope` round-trip tests)
require is violated. -/
theorem C1_roundtrip_code_bug :
    c1Scenario.map (fun s =>
      (s.as_u64, (Scope.fromTuple s.as_tuple).map Scope.as_u64)) =
    some (1, some 0) := rfl

/-- C2: the bit invariant fails on a scope produced by expansion. The
expansion of the tuple `("A", 0, ["P"], [])` gives permission "P" the
value `2` (not `1 << 0` as the claim requires), and because `next_shift`
is set to the permission count (1), a further `add_permission "Q"`
allocates value `2` again — a duplicate of "P"'s value, not a
continuation of the bit sequence. -/
theorem C2_expanded_bits_code_bug :
    c2Expanded.map (fun s =>
      ((s.permission "P").map Permission.value,
        (runOk (s.add_permission "Q")).map (fun s' =>
          ((s'.permission "P").map Permission.value,
           (s'.permission "Q").map Permission.value)))) =
    some (some 2, some (some 2, some 2)) := rfl

theorem expand_permissions_none_of_long (agg : Nat) :
    ∀ (names : List String) (i : Nat) (acc : List (String × Permission)),
      i ≤ 52 → 53 ≤ i + names.length →
      expand_permissions agg names i acc = none := by
  intro names
  induction names with
  | nil => intro i acc h1 h2; simp only [List.length_nil] at h2; omega
  | cons n rest ih =>
      intro i acc h1 h2
      simp only [List.length_cons] at h2
      simp only [expand_permissions]
      rcases Nat.lt_or_ge i 52 with h | h
      · rw [Permission.new_ok n (by omega : i + 1 ≤ 52)]
        exact ih (i + 1) _ (by omega) (by omega)
      · have hi : i = 52 := by omega
        subst hi
        rw [Permission.new_overflow n (by omega) (by omega)]

/-- C3: expansion panics on tuples collapsed from legal scopes. The claim
says `Scope::from(S.as_tuple())` never reaches the panic branch for a
Scope built through the public API, but any scope holding 53 permissions
— the documented cap, reachable by 53 successful `add_permission` calls —
collapses to a 53-name tuple whose expansion attempts shift `52 + 1 = 53`
at the last position, fails `validate_shift`, and panics. -/
theorem C3_expand_panics_on_full_scope (s : Scope)
    (h : 53 ≤ s.permissions.length) :
    Scope.fromTuple s.as_tuple = none := by
  cases s with
  | mk name perms k children =>
      simp only [Scope.permissions] at h
      simp only [Scope.as_tuple, Scope.fromTuple]
      rw [expand_permissions_none_of_long (aggregateList perms)
        (perms.map Prod.fst) 0 [] (by omega)
        (by simpa using h)]

/-- Witness for C3: the 53-permission scope `s53` (bits 0..52) satisfies
the hypothesis and its collapse-then-expand panics. -/
theorem C3_expand_panics_witness :
    53 ≤ s53.permissions.length ∧ Scope.fromTuple s53.as_tuple = none :=
  ⟨by simp [s53, Scope.permissions],
   C3_expand_panics_on_full_scope s53 (by simp [s53, Scope.permissions])⟩

/-- C4 counterexample: the claim says every shift `s ≥ 53` fails with the
`ShiftOverflow` (`MaxValue`) error, but at `s = 64` the computation
`1 << s` itself overflows the 64-bit shift (a panic under checked
arithmetic, `none` in the model), so no `ShiftOverflow` error is
produced. -/
theorem C4_counterexample :
    Permission.new "TEST_PERMISSION" 64 = none ∧
    isShiftOverflow (Permission.new "TEST_PERMISSION" 64) = false :=
  ⟨rfl, rfl⟩

/-- C4 (amended): `Permission::new(name, s)` succeeds with value `1 << s`
for `0 ≤ s ≤ 52`, fails with `ShiftOverflow` for `53 ≤ s ≤ 63`, and for
`s ≥ 64` the shift itself overflows (panic); after 53 successful
`add_permission` calls (`next_shift = 53`), the next `add_permission` of
a fresh name fails with `ShiftOverflow` at shift 53. -/
theorem C4_shift_bounds (name : String) (s : Nat) :
    (s ≤ 52 → Permission.new name s =
      some (Except.ok { name := name, value := 2 ^ s, has_permission := false })) ∧
    (53 ≤ s → s ≤ 63 → Permission.new name s =
      some (Except.error (ErrorKind.PermissionError PermissionErrorCase.MaxValue
        name ⟨some s⟩))) ∧
    (64 ≤ s → Permission.new name s = none) ∧
    (∀ sc : Scope, sc.next_permission_shift = 53 →
      sc.validate_name name = Except.ok () →
      sc.add_permission name =
        some (sc, Except.error (ErrorKind.PermissionError
          PermissionErrorCase.MaxValue name ⟨some 53⟩))) := by
  refine ⟨fun h => Permission.new_ok name h,
    fun h53 h63 => Permission.new_overflow name h53 h63,
    fun h => Permission.new_panic name h,
    fun sc hsc hv => ?_⟩
  have h1 : Permission.new name 53 =
      some (Except.error (ErrorKind.PermissionError PermissionErrorCase.MaxValue
        name ⟨some 53⟩)) :=
    Permission.new_overflow name (by omega) (by omega)
  simp only [Scope.add_permission, hv, hsc, h1]

/-- Witness for C4_shift_bounds at shifts 0, 53, 64 and at a scope whose
counter stands at 53. -/
theorem C4_shift_bounds_witness :
    Permission.new "READ" 0 =
      some (Except.ok { name := "READ", value := 1, has_permission := false }) ∧
    Permission.new "READ" 53 =
      some (Except.error (ErrorKind.PermissionError PermissionErrorCase.MaxValue
        "READ" ⟨some 53⟩)) ∧
    Permission.new "READ" 64 = none ∧
    (Scope.mk "S" [] 53 []).add_permission "READ" =
      some (Scope.mk "S" [] 53 [], Except.error (ErrorKind.PermissionError
        PermissionErrorCase.MaxValue "READ" ⟨some 53⟩)) :=
  ⟨(C4_shift_bounds "READ" 0).1 (by omega),
   (C4_shift_bounds "READ" 53).2.1 (by omega) (by omega),
   (C4_shift_bounds "READ" 64).2.2.1 (by omega),
   (C4_shift_bounds "READ" 53).2.2.2 (Scope.mk "S" [] 53 []) rfl rfl⟩

/-- C8: `grant` on an already-granted permission fails with
`AlreadyGranted` (`GrantError`) and leaves the permission unchanged,
otherwise sets the flag; `revoke` on an ungranted permission fails with
`NotGranted` (`RevocationError`), otherwise clears the flag; the returned
handle is the same permission (name and value preserved); and grant
followed by revoke leaves `has() = false`. -/
theorem C8_grant_revoke_spec (p : Permission) :
    p.grant = (if p.has_permission then
        (p, Except.error (ErrorKind.PermissionError PermissionErrorCase.GrantError
          p.name ⟨none⟩))
      else ({ p with has_permission := true }, Except.ok ())) ∧
    p.revoke = (if p.has_permission then
        ({ p with has_permission := false }, Except.ok ())
      else (p, Except.error (ErrorKind.PermissionError
        PermissionErrorCase.RevocationError p.name ⟨none⟩))) ∧
    (p.grant.1.name = p.name ∧ p.grant.1.value = p.value) ∧
    Permission.has p.grant.1.revoke.1 = false := by
  cases hp : p.has_permission <;>
    simp [Permission.grant, Permission.revoke, Permission.has, hp]

/-- C9: `Permission::new` never returns the `InvalidValue` error — every
shift accepted by `validate_shift` computes a value `1 << shift` that
passes `validate_value` (it is a power of two), so the defensive branch
is unreachable. -/
theorem C9_invalid_value_unreachable (name : String) (s : Nat) :
    returnsInvalidValue (Permission.new name s) = false ∧
    (∀ v : Nat, validate_shift name s = some (Except.ok v) →
      validate_value name (2 ^ v) = Except.ok ()) := by
  constructor
  · rcases Nat.lt_or_ge s 53 with h | h
    · rw [Permission.new_ok name (by omega : s ≤ 52)]; rfl
    · rcases Nat.lt_or_ge s 64 with h' | h'
      · rw [Permission.new_overflow name h (by omega)]; rfl
      · rw [Permission.new_panic name h']; rfl
  · intro v hv
    rcases Nat.lt_or_ge s 53 with h | h
    · rw [validate_shift_ok name (by omega : s ≤ 52)] at hv
      have hv' : s = v := by
        injection hv with h1
        injection h1
      subst hv'
      simp [validate_value, is_power_of_two_pow s]
    · rcases Nat.lt_or_ge s 64 with h' | h'
      · rw [validate_shift_overflow name h (by omega)] at hv
        exact absurd hv (by simp)
      · rw [validate_shift_panic name h'] at hv
        exact absurd hv (by simp)

/-- Witness for C9 at shift 0. -/
theorem C9_witness :
    returnsInvalidValue (Permission.new "X" 0) = false ∧
    validate_value "X" (2 ^ 0) = Except.ok () :=
  ⟨(C9_invalid_value_unreachable "X" 0).1,
   (C9_invalid_value_unreachable "X" 0).2 0 (validate_shift_ok "X" (by omega))⟩

theorem aggregate_foldl_testBit (k : Nat) :
    ∀ (perms : List (String × Permission)) (a : Nat),
      ((perms.foldl (fun value e => if e.2.has then value ||| e.2.value
        else value) a).testBit k)
      = (a.testBit k ||
          perms.any (fun e => e.2.has_permission && e.2.value.testBit k)) := by
  intro perms
  induction perms with
  | nil => intro a; simp
  | cons e rest ih =>
      intro a
      simp only [List.foldl_cons, List.any_cons, ih]
      by_cases he : e.2.has_permission
      · simp [Permission.has, he, Nat.testBit_lor, Bool.or_assoc]
      · simp [Permission.has, he]

/-- C5: a bit is set in `as_u64` exactly when some direct permission is
granted and carries that bit; the child-scope map has no effect on the
result; and the concrete READ/WRITE/EXECUTE scenario with READ and
EXECUTE granted aggregates to 5. -/
theorem C5_as_u64_spec :
    (∀ (s : Scope) (k : Nat), (Scope.as_u64 s).testBit k =
      s.permissions.any (fun e => e.2.has_permission && e.2.value.testBit k)) ∧
    (∀ (name : String) (perms : List (String × Permission)) (j : Nat)
      (children children' : List (String × Scope)),
      Scope.as_u64 (Scope.mk name perms j children) =
      Scope.as_u64 (Scope.mk name perms j children')) ∧
    c5Scenario.map Scope.as_u64 = some 5 := by
  refine ⟨fun s k => ?_, fun _ _ _ _ _ => rfl, rfl⟩
  have h := aggregate_foldl_testBit k s.permissions 0
  simpa [Scope.as_u64, aggregateList] using h

theorem Scope.eta (s : Scope) :
    Scope.mk s.name s.permissions s.next_permission_shift s.scopes = s := by
  cases s
  rfl

theorem setKey_getKey_self {α : Type} :
    ∀ (m : List (String × α)) (k : String) (v : α),
      getKey m k = some v → setKey m k v = m := by
  intro m k v
  induction m with
  | nil => intro h; simp [getKey] at h
  | cons e rest ih =>
      intro h
      simp only [getKey] at h
      simp only [setKey]
      by_cases he : e.1 == k
      · rw [if_pos he] at h
        rw [if_pos he]
        have hk : e.1 = k := by simpa using he
        injection h with hv
        subst hk
        rw [← hv]
      · rw [if_neg he] at h
        rw [if_neg he, ih h]

theorem getKey_of_permission {s : Scope} {n : String} {p : Permission}
    (h : s.permission n = some p) : getKey s.permissions n = some p := by
  by_cases he : s.permissions.isEmpty <;> simp [Scope.permission, he] at h
  exact h

/-- C6: whenever one of the four public mutations returns an error, the
scope it operated on is unchanged — every error path of `add_permission`,
`add_scope`, `grant` and `revoke` returns before any write
(validate-then-commit). -/
theorem C6_no_partial_mutation (s sf : Scope) (op : Op) (e : ErrorKind)
    (h : applyOp s op = some (sf, Except.error e)) : sf = s := by
  cases op with
  | addPermission n =>
      simp only [applyOp, Scope.add_permission] at h
      split at h
      · simp only [Option.some.injEq, Prod.mk.injEq] at h
        exact h.1.symm
      · split at h
        · exact absurd h (by simp)
        · simp only [Option.some.injEq, Prod.mk.injEq] at h
          exact h.1.symm
        · simp only [Option.some.injEq, Prod.mk.injEq] at h
          exact absurd h.2 (by simp)
  | addScope n =>
      simp only [applyOp, Scope.add_scope] at h
      split at h
      · simp only [Option.some.injEq, Prod.mk.injEq] at h
        exact h.1.symm
      · simp only [Option.some.injEq, Prod.mk.injEq] at h
        exact absurd h.2 (by simp)
  | grantPermission n =>
      simp only [applyOp, Scope.grant_permission] at h
      split at h
      · exact absurd h (by simp)
      · rename_i p hp
        by_cases hg : p.has_permission
        · simp only [Permission.grant, hg, if_true, Option.some.injEq,
            Prod.mk.injEq] at h
          rw [setKey_getKey_self _ _ _ (getKey_of_permission hp),
            Scope.eta] at h
          exact h.1.symm
        · simp only [Permission.grant, hg, if_false, Option.some.injEq,
            Prod.mk.injEq] at h
          exact absurd h.2 (by simp)
  | revokePermission n =>
      simp only [applyOp, Scope.revoke_permission] at h
      split at h
      · exact absurd h (by simp)
      · rename_i p hp
        by_cases hg : p.has_permission
        · simp [Permission.revoke, hg] at h
        · simp only [Permission.revoke, hg, Bool.not_false, if_true,
            Option.some.injEq, Prod.mk.injEq] at h
          rw [setKey_getKey_self _ _ _ (getKey_of_permission hp),
            Scope.eta] at h
          exact h.1.symm

/-- Witness for C6: a duplicate `add_permission` on `collisionScope`
errors and leaves the scope exactly as it was. -/
theorem C6_witness :
    applyOp collisionScope (Op.addPermission "P") =
      some (collisionScope, Except.error collisionError) ∧
    collisionScope = collisionScope :=
  ⟨rfl, C6_no_partial_mutation collisionScope collisionScope
    (Op.addPermission "P") collisionError rfl⟩

theorem containsKey_isEmpty_and {α : Type} (m : List (String × α))
    (k : String) : (!m.isEmpty && containsKey m k) = containsKey m k := by
  cases m <;> simp [containsKey]

/-- C7: `validate_name` succeeds exactly when the name collides with no
permission key and no child-scope key, and otherwise returns the one of
the three mutually exclusive collision errors matching which maps the
name collides with; `add_permission` and `add_scope` propagate that
error unchanged. -/
theorem C7_validate_name_spec (s : Scope) (name : String) :
    (s.validate_name name =
      if containsKey s.permissions name then
        if containsKey s.scopes name then
          Except.error (ErrorKind.ScopeError ScopeErrorCase.BothExist name)
        else
          Except.error (ErrorKind.ScopeError ScopeErrorCase.PermissionExists name)
      else if containsKey s.scopes name then
        Except.error (ErrorKind.ScopeError ScopeErrorCase.ScopeExists name)
      else Except.ok ()) ∧
    (∀ e, s.validate_name name = Except.error e →
      s.add_permission name = some (s, Except.error e) ∧
      s.add_scope name = (s, Except.error e)) := by
  constructor
  · simp only [Scope.validate_name, containsKey_isEmpty_and]
    by_cases hp : containsKey s.permissions name <;>
      by_cases hs : containsKey s.scopes name <;>
        simp [hp, hs]
  · intro e he
    exact ⟨by simp only [Scope.add_permission, he], by
      simp only [Scope.add_scope, he]⟩

/-- Witness for C7: adding the name "P" twice to `collisionScope`
collides with the existing permission through both entry points. -/
theorem C7_witness :
    collisionScope.validate_name "P" = Except.error collisionError ∧
    collisionScope.add_permission "P" =
      some (collisionScope, Except.error collisionError) ∧
    collisionScope.add_scope "P" = (collisionScope, Except.error collisionError) :=
  ⟨rfl,
   ((C7_validate_name_spec collisionScope "P").2 collisionError rfl).1,
   ((C7_validate_name_spec collisionScope "P").2 collisionError rfl).2⟩

theorem expand_permissions_isSome (agg : Nat) :
    ∀ (names : List String) (i : Nat) (acc : List (String × Permission)),
      i + names.length ≤ 52 →
      (expand_permissions agg names i acc).isSome = true := by
  intro names
  induction names with
  | nil => intro i acc _; rfl
  | cons n rest ih =>
      intro i acc h
      simp only [List.length_cons] at h
      simp only [expand_permissions]
      rw [Permission.new_ok n (by omega : i + 1 ≤ 52)]
      exact ih (i + 1) _ (by omega)

theorem fromTuple_isSome_fuel :
    ∀ fuel : Nat,
      (∀ t : ScopeTuple, sizeOf t ≤ fuel → bounded_tuple t = true →
        (Scope.fromTuple t).isSome = true) ∧
      (∀ (ts : List ScopeTuple) (acc : List (String × Scope)),
        sizeOf ts ≤ fuel → bounded_children ts = true →
        (expand_children ts acc).isSome = true) := by
  intro fuel
  induction fuel with
  | zero =>
      constructor
      · intro t ht _
        cases t with
        | mk name agg names children => simp at ht
      · intro ts acc ht _
        cases ts with
        | nil => rfl
        | cons t rest => simp at ht
  | succ fn ih =>
      constructor
      · intro t ht hb
        cases t with
        | mk name agg names children =>
            simp only [bounded_tuple, Bool.and_eq_true, decide_eq_true_eq] at hb
            obtain ⟨hlen, hch⟩ := hb
            simp only [Scope.fromTuple]
            obtain ⟨perms, hperms⟩ := Option.isSome_iff_exists.mp
              (expand_permissions_isSome agg names 0 [] (by omega))
            rw [hperms]
            have hsz : sizeOf children ≤ fn := by
              simp only [ScopeTuple.mk.sizeOf_spec] at ht
              omega
            obtain ⟨scopes, hscopes⟩ := Option.isSome_iff_exists.mp
              (ih.2 children [] hsz hch)
            rw [hscopes]
            rfl
      · intro ts acc ht hb
        cases ts with
        | nil => rfl
        | cons t rest =>
            simp only [bounded_children, Bool.and_eq_true] at hb
            obtain ⟨hbt, hbr⟩ := hb
            simp only [List.cons.sizeOf_spec] at ht
            simp only [expand_children]
            obtain ⟨child, hchild⟩ := Option.isSome_iff_exists.mp
              (ih.1 t (by omega) hbt)
            rw [hchild]
            exact ih.2 rest _ (by omega) hbr

theorem two_shiftLeft_eq (i : Nat) : (2 : Nat) <<< i = 2 ^ (i + 1) := by
  rw [Nat.shiftLeft_eq]
  ring

theorem and_mask_iff (n i : Nat) :
    (n &&& (2 <<< i) = 2 <<< i) ↔ n.testBit (i + 1) = true := by
  rw [two_shiftLeft_eq, Nat.and_two_pow]
  cases hb : n.testBit (i + 1) <;>
    simp [hb, (Nat.two_pow_pos (i + 1)).ne, (Nat.two_pow_pos (i + 1)).ne']

theorem expand_permissions_congr (agg agg' : Nat) :
    ∀ (names : List String) (i : Nat) (acc : List (String × Permission)),
      (∀ j, j < names.length →
        agg.testBit (i + 1 + j) = agg'.testBit (i + 1 + j)) →
      expand_permissions agg names i acc =
      expand_permissions agg' names i acc := by
  intro names
  induction names with
  | nil => intro i acc _; rfl
  | cons n rest ih =>
      intro i acc h
      simp only [expand_permissions]
      cases hp : Permission.new n (i + 1) with
      | none => rfl
      | some r =>
          cases r with
          | error err => rfl
          | ok perm =>
              show expand_permissions agg rest (i + 1)
                  (insertKey acc n (if agg &&& (2 <<< i) = 2 <<< i then
                    (Permission.grant perm).1 else perm)) =
                expand_permissions agg' rest (i + 1)
                  (insertKey acc n (if agg' &&& (2 <<< i) = 2 <<< i then
                    (Permission.grant perm).1 else perm))
              have h0 : agg.testBit (i + 1) = agg'.testBit (i + 1) := by
                have h00 := h 0 (by simp)
                simpa using h00
              have hiff : (agg &&& (2 <<< i) = 2 <<< i) ↔
                  (agg' &&& (2 <<< i) = 2 <<< i) := by
                rw [and_mask_iff, and_mask_iff, h0]
              have hrest : ∀ j, j < rest.length →
                  agg.testBit (i + 1 + 1 + j) = agg'.testBit (i + 1 + 1 + j) := by
                intro j hj
                have hh := h (j + 1) (by simpa using Nat.succ_lt_succ hj)
                have harith : i + 1 + (j + 1) = i + 1 + 1 + j := by omega
                rw [harith] at hh
                exact hh
              by_cases hb : agg &&& (2 <<< i) = 2 <<< i
              · rw [if_pos hb, if_pos (hiff.mp hb)]
                exact ih (i + 1) _ hrest
              · rw [if_neg hb, if_neg (fun hc => hb (hiff.mpr hc))]
                exact ih (i + 1) _ hrest

/-- C10: `Scope::from` never validates the aggregate — for every tuple
whose permission-name lists all hold at most 52 entries, expansion
succeeds for every aggregate value (including values above the `2^53 - 1`
ceiling, unconstrained here), and two aggregates agreeing on the bits the
expansion examines (bits `1..names.length`) expand identically, so the
remaining bits have no effect. -/
theorem C10_no_aggregate_validation :
    (∀ t : ScopeTuple, bounded_tuple t = true →
      (Scope.fromTuple t).isSome = true) ∧
    (∀ (name : String) (agg agg' : Nat) (names : List String)
      (children : List ScopeTuple),
      (∀ j, j < names.length → agg.testBit (j + 1) = agg'.testBit (j + 1)) →
      Scope.fromTuple (ScopeTuple.mk name agg names children) =
      Scope.fromTuple (ScopeTuple.mk name agg' names children)) := by
  constructor
  · intro t hb
    exact (fromTuple_isSome_fuel (sizeOf t)).1 t le_rfl hb
  · intro name agg agg' names children h
    simp only [Scope.fromTuple]
    rw [expand_permissions_congr agg agg' names 0 [] (fun j hj => by
      have hh := h j hj
      rw [show 0 + 1 + j = j + 1 by omega]
      exact hh)]

/-- Witness for C10: a tuple whose aggregate `2^60 + 1` exceeds the
interchange ceiling still expands, and aggregates 1 and 5 (equal on the
single examined bit 1) expand to the same scope. -/
theorem C10_witness :
    bounded_tuple (ScopeTuple.mk "A" (2 ^ 60 + 1) ["P"]
      [ScopeTuple.mk "B" 7 [] []]) = true ∧
    (Scope.fromTuple (ScopeTuple.mk "A" (2 ^ 60 + 1) ["P"]
      [ScopeTuple.mk "B" 7 [] []])).isSome = true ∧
    Scope.fromTuple (ScopeTuple.mk "C" 1 ["P"] []) =
      Scope.fromTuple (ScopeTuple.mk "C" 5 ["P"] []) :=
  ⟨rfl,
   C10_no_aggregate_validation.1 (ScopeTuple.mk "A" (2 ^ 60 + 1) ["P"]
     [ScopeTuple.mk "B" 7 [] []]) rfl,
   C10_no_aggregate_validation.2 "C" 1 5 ["P"] [] (by decide)⟩

end Bitperm
